import Mathlib

/-!
Verification of the ren-utils allocation toolkit.

Shallow embedding of the C++ sources:
  * `src/include/ren_utils/alloc/allocator.hpp`   (Align utilities)
  * `src/src/alloc/StackAllocator.cpp`            (StackAllocator)
  * `src/src/alloc/stack.cpp`                     (DoubleStackAllocator)
  * `src/unnamed/part_002`                        (DoubleStackAllocator aligned Alloc)
  * `src/unnamed/part_003`                        (historical StackAllocator aligned Alloc)
  * `src/include/ren_utils/alloc/PoolAllocator.hpp` (PoolAllocator)

Machine integers (`size_t`, `uintptr_t`) are modelled as `Nat` with explicit
`% 2 ^ 64` at every operation where the C++ arithmetic can wrap (the target is
64-bit Linux: `%lu` format strings, 8-byte pointers).  Pointers are `Nat`
addresses with `0` playing the role of `nullptr`.  Byte memory is a total
function `Nat → Nat` holding values `< 256`; pointer-sized stores and loads
are 8 bytes, little endian, exactly as the hardware the code runs on.
C++ exceptions and failed assertions are modelled by an explicit `Bool`
("the call threw / the assertion failed") paired with the resulting state;
the C++ code throws before mutating, so the paired state is the input state.
-/

namespace RenUtils

/-- Modulus of `size_t` / `uintptr_t` on the 64-bit target. -/
def WSIZE : Nat := 2 ^ 64

/-- Number of bytes of a pointer (`sizeof(uint8_t*)`) on the 64-bit target. -/
def PTRSIZE : Nat := 8

/-- Read the byte stored at address `a`. -/
def readByte (m : Nat → Nat) (a : Nat) : Nat := m a

/-- Store the byte `v & 0xff` at address `a` (C++ stores through `uint8_t*`). -/
def writeByte (m : Nat → Nat) (a v : Nat) : Nat → Nat :=
  fun x => if x = a then v % 256 else m x

/-- Read the 8-byte little-endian word at address `a`
(a `uint8_t**` load in the C++). -/
def readWord (m : Nat → Nat) (a : Nat) : Nat :=
  m a + m (a + 1) * 256 + m (a + 2) * 256 ^ 2 + m (a + 3) * 256 ^ 3 +
    m (a + 4) * 256 ^ 4 + m (a + 5) * 256 ^ 5 + m (a + 6) * 256 ^ 6 +
    m (a + 7) * 256 ^ 7

/-- Store the value `v` as an 8-byte little-endian word at address `a`
(a `uint8_t**` store in the C++). -/
def writeWord (m : Nat → Nat) (a v : Nat) : Nat → Nat :=
  fun x => if a ≤ x ∧ x < a + 8 then v / 256 ^ (x - a) % 256 else m x

namespace Align

/-- `Align::AlignPtr(uintptr_t addr, size_t align)` from `allocator.hpp`:
`(addr + mask) & ~mask` with `mask = align - 1`, computed on `uintptr_t`.
On the 64-bit target `~mask` is `2^64 - align` (for `align ≥ 1`). -/
def AlignPtr (addr al : Nat) : Nat :=
  ((addr + (al - 1)) % WSIZE) &&& (WSIZE - al)

/-- `Align::AlignPtrStore(T* orig, size_t align)` from `allocator.hpp`:
aligns `orig`, bumps by `align` when already aligned, and stores the shift
(`shift & 0xff`) in the byte just before the returned pointer.  Returns the
aligned pointer together with the updated memory. -/
def AlignPtrStore (m : Nat → Nat) (orig al : Nat) : Nat × (Nat → Nat) :=
  let a0 := AlignPtr orig al
  let aligned := if a0 = orig then (a0 + al) % WSIZE else a0
  (aligned, writeByte m (aligned - 1) (aligned - orig))

/-- `Align::UnalignPtr(T* aligned)` from `allocator.hpp`: reads the shift byte
just before `aligned` (decoding a stored `0` as `256`) and subtracts it. -/
def UnalignPtr (m : Nat → Nat) (aligned : Nat) : Nat :=
  aligned - (if readByte m (aligned - 1) = 0 then 256 else readByte m (aligned - 1))

/-- `Align::IsAligned(T* ptr, size_t align)` from `allocator.hpp`. -/
def IsAligned (ptr al : Nat) : Prop := ptr % al = 0

end Align

/-- State of a `StackAllocator` (`StackAllocator.h`): capacity `m_totalStackSize`,
cursor `m_pTop`, the address `m_stack` of the backing buffer, and byte memory. -/
structure StackAllocator where
  totalStackSize : Nat
  pTop : Nat
  base : Nat
  mem : Nat → Nat

namespace StackAllocator

/-- `StackAllocator::InvalidMarker = Marker(-1)` (`size_t(-1)` on the target). -/
def InvalidMarker : Nat := WSIZE - 1

/-- The constructor `StackAllocator::StackAllocator(size_t)` throws
`std::invalid_argument` exactly on these capacities. -/
def ctorThrows (stack_size : Nat) : Bool :=
  stack_size == 0 || stack_size == InvalidMarker

/-- The freshly constructed state (`m_pTop = 0`, buffer at address `base`). -/
def init (stack_size base : Nat) (m : Nat → Nat) : StackAllocator :=
  ⟨stack_size, 0, base, m⟩

/-- `StackAllocator::Alloc(size_t n_bytes)` from `StackAllocator.cpp`:
returns the allocated address (or `none` for `nullptr`) and the new state. -/
def Alloc (a : StackAllocator) (n : Nat) : Option Nat × StackAllocator :=
  if (a.pTop + n) % WSIZE > a.totalStackSize then (none, a)
  else (some ((a.base + a.pTop) % WSIZE), { a with pTop := (a.pTop + n) % WSIZE })

/-- `StackAllocator::AllocAligned(size_t n_bytes, size_t align)` from
`StackAllocator.cpp`: allocates `n_bytes + align` bytes, then aligns with
`Align::AlignPtrStore`, which records the shift byte in the buffer. -/
def AllocAligned (a : StackAllocator) (n al : Nat) : Option Nat × StackAllocator :=
  let total := (n + al) % WSIZE
  match Alloc a total with
  | (none, a') => (none, a')
  | (some p, a') =>
      let pr := Align.AlignPtrStore a'.mem p al
      (some pr.1, { a' with mem := pr.2 })

/-- `StackAllocator::GetAlignedBase(void*)` from `StackAllocator.cpp`:
`nullptr` maps to `nullptr`, otherwise `Align::UnalignPtr`. -/
def GetAlignedBase (a : StackAllocator) (p : Nat) : Nat :=
  if p = 0 then 0 else Align.UnalignPtr a.mem p

/-- `StackAllocator::FreeToMarker(const Marker&)`: the `Bool` is `true` when the
call throws `std::invalid_argument` (state unchanged, as the throw precedes the
assignment), `false` when the cursor is set to the marker. -/
def FreeToMarker (a : StackAllocator) (marker : Nat) : Bool × StackAllocator :=
  if marker > a.pTop then (true, a) else (false, { a with pTop := marker })

/-- `StackAllocator::Clear()`. -/
def Clear (a : StackAllocator) : StackAllocator := { a with pTop := 0 }

/-- `StackAllocator::GetMarker()`. -/
def GetMarker (a : StackAllocator) : Nat := a.pTop

/-- `StackAllocator::GetCurrentSize()`. -/
def GetCurrentSize (a : StackAllocator) : Nat := a.pTop

/-- The historical revision `src/unnamed/part_003` of
`StackAllocator::Alloc(size_t n_bytes, Align align)`: allocates
`n_bytes + align - 1` bytes and aligns with `Align::AlignPtr`
(no shift byte is stored). -/
def AllocAlignedOld (a : StackAllocator) (n al : Nat) : Option Nat × StackAllocator :=
  match Alloc a ((n + al - 1) % WSIZE) with
  | (none, a') => (none, a')
  | (some p, a') => (some (Align.AlignPtr p al), a')

/-- Run `Alloc` over a list of request sizes, collecting each result. -/
def AllocList (a : StackAllocator) (ns : List Nat) : List (Option Nat) × StackAllocator :=
  match ns with
  | [] => ([], a)
  | n :: rest =>
      let r := Alloc a n
      let rr := AllocList r.2 rest
      (r.1 :: rr.1, rr.2)

end StackAllocator

/-- `DoubleStackAllocator::Side` from `DoubleStackAllocator.h`. -/
inductive Side where
  | LEFT
  | RIGHT
deriving DecidableEq

/-- State of a `DoubleStackAllocator` (`DoubleStackAllocator.h`): capacity
`m_totalMemSize`, the two cursors `m_left` and `m_right`, and the address
`m_memory` of the backing buffer.  (No operation of this allocator writes
to the buffer, so no byte memory is carried.) -/
structure DoubleStackAllocator where
  totalMemSize : Nat
  left : Nat
  right : Nat
  base : Nat

/-- `DoubleStackAllocator::Marker`: a side together with a cursor value. -/
structure DsaMarker where
  side : Side
  idx : Nat

namespace DoubleStackAllocator

/-- The constructor `DoubleStackAllocator::DoubleStackAllocator(size_t)` has
`assert(total_size != size_t(-1))` and no other capacity check; the `Bool`
is `true` when that assertion fails. -/
def ctorAssertFails (total_size : Nat) : Bool :=
  total_size == WSIZE - 1

/-- The freshly constructed state: `m_left = 0`, `m_right = total_size`. -/
def init (total_size base : Nat) : DoubleStackAllocator :=
  ⟨total_size, 0, total_size, base⟩

/-- `DoubleStackAllocator::Alloc(Side side, size_t n_bytes)` from `stack.cpp`:
LEFT returns the old `m_left` offset and bumps it; RIGHT decrements `m_right`
and returns the new offset. -/
def Alloc (a : DoubleStackAllocator) (side : Side) (n : Nat) :
    Option Nat × DoubleStackAllocator :=
  match side with
  | .LEFT =>
      if (a.left + n) % WSIZE > a.right then (none, a)
      else (some ((a.base + a.left) % WSIZE), { a with left := (a.left + n) % WSIZE })
  | .RIGHT =>
      if n > a.right ∨ a.right - n < a.left then (none, a)
      else (some ((a.base + (a.right - n)) % WSIZE), { a with right := a.right - n })

/-- `DoubleStackAllocator::Alloc(Side side, size_t n_bytes, Align align)` from
`src/unnamed/part_002`: allocates `n_bytes + align - 1` bytes on the chosen
side and aligns the result with `Align::AlignPtr` (no shift byte is stored). -/
def AllocAligned (a : DoubleStackAllocator) (side : Side) (n al : Nat) :
    Option Nat × DoubleStackAllocator :=
  match Alloc a side ((n + al - 1) % WSIZE) with
  | (none, a') => (none, a')
  | (some p, a') => (some (Align.AlignPtr p al), a')

/-- `DoubleStackAllocator::FreeToMarker(const Marker&)` from `stack.cpp`; the
`Bool` is `true` when the call throws `std::invalid_argument` (state
unchanged, as the throw precedes the assignment). -/
def FreeToMarker (a : DoubleStackAllocator) (mk : DsaMarker) :
    Bool × DoubleStackAllocator :=
  match mk.side with
  | .LEFT =>
      if mk.idx > a.left then (true, a) else (false, { a with left := mk.idx })
  | .RIGHT =>
      if mk.idx < a.right then (true, a) else (false, { a with right := mk.idx })

/-- `DoubleStackAllocator::Clear(Side)`. -/
def Clear (a : DoubleStackAllocator) (side : Side) : DoubleStackAllocator :=
  match side with
  | .LEFT => { a with left := 0 }
  | .RIGHT => { a with right := a.totalMemSize }

/-- `DoubleStackAllocator::ClearAll()`. -/
def ClearAll (a : DoubleStackAllocator) : DoubleStackAllocator :=
  { a with left := 0, right := a.totalMemSize }

/-- `DoubleStackAllocator::GetMarker(Side)`. -/
def GetMarker (a : DoubleStackAllocator) (side : Side) : DsaMarker :=
  match side with
  | .LEFT => ⟨.LEFT, a.left⟩
  | .RIGHT => ⟨.RIGHT, a.right⟩

/-- `DoubleStackAllocator::GetCurrentSize(Side)`. -/
def GetCurrentSize (a : DoubleStackAllocator) (side : Side) : Nat :=
  match side with
  | .LEFT => a.left
  | .RIGHT => a.totalMemSize - a.right

/-- One public mutating operation of the allocator (the interleavings of
claim C1 range over lists of these). -/
inductive Op where
  | alloc (side : Side) (n : Nat)
  | freeTo (mk : DsaMarker)
  | clear (side : Side)
  | clearAll

/-- Apply one operation, keeping the resulting state (a thrown
`FreeToMarker` leaves the state unchanged, as in the C++). -/
def step (a : DoubleStackAllocator) : Op → DoubleStackAllocator
  | .alloc side n => (Alloc a side n).2
  | .freeTo mrk => (FreeToMarker a mrk).2
  | .clear side => Clear a side
  | .clearAll => ClearAll a

/-- Apply a list of operations in order. -/
def run (a : DoubleStackAllocator) (ops : List Op) : DoubleStackAllocator :=
  ops.foldl step a

/-- A marker value that `GetMarker` can actually have produced never exceeds
the capacity; operations built from such markers. -/
def opWellFormed (total : Nat) : Op → Bool
  | .freeTo mrk => mrk.idx ≤ total
  | _ => true

end DoubleStackAllocator

/-- State of a `PoolAllocator<T>` (`PoolAllocator.hpp`): the buffer address
`m_pool`, the free-list head `m_first` (`0` for `nullptr`), the counters
`m_total` and `m_used`, the alignment `m_align`, the slot payload size
`max(sizeof(T), sizeof(uint8_t*))` fixed by the template parameter `T`,
and byte memory. -/
structure PoolAllocator where
  pool : Nat
  first : Nat
  total : Nat
  used : Nat
  align : Nat
  itemSize : Nat
  mem : Nat → Nat

namespace PoolAllocator

/-- Number of bytes malloc'ed by the constructor:
`malloc((num_items + align) * item_size)` in `PoolAllocator.hpp`. -/
def allocBytes (num_items al item_size : Nat) : Nat :=
  (num_items + al) * item_size

/-- `step = item_size + align`, the stride between slots used by the
constructor's initialization loop. -/
def slotStep (item_size al : Nat) : Nat := item_size + al

/-- The constructor's free-list initialization loop: for `i` in
`0..num_items-1` it stores at `m_pool + i * step` the address of slot `i+1`
(`nullptr` for the last slot). -/
def fillFreeList (base stp num_items : Nat) (m : Nat → Nat) : Nat → Nat :=
  (List.range num_items).foldl
    (fun mm i =>
      writeWord mm (base + i * stp)
        (if i = num_items - 1 then 0 else base + (i + 1) * stp))
    m

/-- `PoolAllocator<T>::PoolAllocator(size_t num_items, size_t align)`:
the state after construction, with the malloc'ed buffer at address `base`
over initial memory `m0`.  (`item_size` is `max(sizeof(T), sizeof(uint8_t*))`;
the constructor asserts `num_items != 0` and `0 < align ≤ 256`.) -/
def init (num_items al item_size base : Nat) (m0 : Nat → Nat) : PoolAllocator :=
  { pool := base
    first := base
    total := num_items
    used := 0
    align := al
    itemSize := item_size
    mem := fillFreeList base (slotStep item_size al) num_items m0 }

/-- `PoolAllocator<T>::Alloc()` from `PoolAllocator.hpp`: pops the free-list
head, aligns it (bumping by `align` when already aligned), stores the shift
byte just before the returned pointer and increments `m_used`. -/
def Alloc (s : PoolAllocator) : Option Nat × PoolAllocator :=
  if s.used = s.total then (none, s)
  else
    let praw := s.first
    let first' := readWord s.mem praw
    let a0 := Align.AlignPtr praw s.align
    let aligned := if a0 = praw then (a0 + s.align) % WSIZE else a0
    let mem' := writeByte s.mem (aligned - 1) (aligned - praw)
    (some aligned,
      { s with first := first', used := (s.used + 1) % WSIZE, mem := mem' })

/-- `PoolAllocator<T>::Free(T* ptr)` from `PoolAllocator.hpp`: a no-op on
`nullptr`; otherwise recovers the raw slot from the shift byte (`0` decodes
as `256`), stores the old head in the slot, makes the slot the new head and
decrements `m_used`. -/
def Free (s : PoolAllocator) (ptr : Nat) : PoolAllocator :=
  if ptr = 0 then s
  else
    let shift0 := readByte s.mem (ptr - 1)
    let shift := if shift0 = 0 then 256 else shift0
    let raw := ptr - shift
    let mem' := writeWord s.mem raw s.first
    { s with mem := mem', first := raw, used := (s.used + (WSIZE - 1)) % WSIZE }

/-- `PoolAllocator<T>::Delete(T* ptr)` from `PoolAllocator.hpp`: a no-op on
`nullptr`; otherwise runs the destructor and frees.  The `Bool` records
whether the destructor `ptr->~T()` was invoked. -/
def Delete (s : PoolAllocator) (ptr : Nat) : PoolAllocator × Bool :=
  if ptr = 0 then (s, false) else (Free s ptr, true)

/-- `PoolAllocator<T>::GetFree()`. -/
def GetFree (s : PoolAllocator) : Nat := s.total - s.used

/-- `PoolAllocator<T>::GetUsed()`. -/
def GetUsed (s : PoolAllocator) : Nat := s.used

/-- `PoolAllocator<T>::GetTotal()`. -/
def GetTotal (s : PoolAllocator) : Nat := s.total

end PoolAllocator

/-!  Helper lemmas. -/

/-- For a power-of-two block size `2 ^ k` (`k ≤ 64`), the C mask trick
`x & ~(2^k - 1)` on 64-bit words clears the low `k` bits:
it equals `2 ^ k * (x / 2 ^ k)`. -/
theorem land_highMask (k x : Nat) (hk : k ≤ 64) (hx : x < 2 ^ 64) :
    x &&& (2 ^ 64 - 2 ^ k) = 2 ^ k * (x / 2 ^ k) := by
  apply Nat.eq_of_testBit_eq
  intro i
  rw [Nat.testBit_land]
  have hmask : (2 : Nat) ^ 64 - 2 ^ k = (2 ^ (64 - k) - 1) <<< k := by
    rw [Nat.shiftLeft_eq, Nat.sub_mul, one_mul, ← pow_add]
    rw [Nat.sub_add_cancel hk]
  have hrhs : 2 ^ k * (x / 2 ^ k) = (x >>> k) <<< k := by
    rw [Nat.shiftRight_eq_div_pow, Nat.shiftLeft_eq, Nat.mul_comm]
  rw [hmask, hrhs, Nat.testBit_shiftLeft, Nat.testBit_shiftLeft, Nat.testBit_shiftRight,
    Nat.testBit_two_pow_sub_one]
  by_cases hik : k ≤ i
  · have hik' : decide (i ≥ k) = true := by simp [ge_iff_le, hik]
    rw [hik', Nat.add_sub_cancel' hik]
    by_cases hi64 : i < 64
    · have : i - k < 64 - k := by omega
      simp [this]
    · have hxf : x.testBit i = false := by
        apply Nat.testBit_lt_two_pow
        exact lt_of_lt_of_le hx (Nat.pow_le_pow_right (by norm_num) (by omega))
      have : ¬(i - k < 64 - k) := by omega
      simp [this, hxf]
  · have hik' : decide (i ≥ k) = false := by simp [ge_iff_le, hik]
    rw [hik']
    simp

/-- `Align::AlignPtr` in closed arithmetic form, for in-range addresses. -/
theorem alignPtr_eq_mul_div (p al k : Nat) (hal : al = 2 ^ k) (hk : k ≤ 64)
    (hp : p + (al - 1) < WSIZE) :
    Align.AlignPtr p al = al * ((p + (al - 1)) / al) := by
  unfold Align.AlignPtr WSIZE
  rw [Nat.mod_eq_of_lt (show p + (al - 1) < 2 ^ 64 from hp), hal]
  exact land_highMask k (p + (2 ^ k - 1)) hk (by rw [hal] at hp; exact hp)

/-- The result of `Align::AlignPtr` is a multiple of the (power-of-two)
alignment, with no range condition on the address. -/
theorem alignPtr_mod_eq_zero (p al k : Nat) (hal : al = 2 ^ k) (hk : k ≤ 64) :
    Align.AlignPtr p al % al = 0 := by
  unfold Align.AlignPtr WSIZE
  subst hal
  rw [land_highMask k ((p + (2 ^ k - 1)) % 2 ^ 64) hk (Nat.mod_lt _ (by positivity))]
  exact Nat.mul_mod_right _ _

/-- For in-range addresses, `Align::AlignPtr` rounds up by less than `al`. -/
theorem alignPtr_bounds (p al k : Nat) (hal : al = 2 ^ k) (hk : k ≤ 64)
    (hp : p + (al - 1) < WSIZE) :
    p ≤ Align.AlignPtr p al ∧ Align.AlignPtr p al ≤ p + (al - 1) := by
  rw [alignPtr_eq_mul_div p al k hal hk hp]
  have hpos : 0 < al := by rw [hal]; positivity
  have hdm := Nat.div_add_mod (p + (al - 1)) al
  have hlt := Nat.mod_lt (p + (al - 1)) hpos
  omega

/-- `WSIZE` is a multiple of every power of two up to `2 ^ 64`. -/
theorem dvd_WSIZE (al k : Nat) (hal : al = 2 ^ k) (hk : k ≤ 64) : al ∣ WSIZE := by
  rw [hal]
  exact pow_dvd_pow 2 hk

/-- Reading back the byte just stored. -/
theorem readByte_writeByte_same (m : Nat → Nat) (a v : Nat) :
    readByte (writeByte m a v) a = v % 256 := by
  unfold readByte writeByte
  simp

/-- Round trip of the recoverable-shift alignment: `Align::UnalignPtr` undoes
`Align::AlignPtrStore` for any power-of-two alignment up to 256 and any
in-range base pointer. -/
theorem unalignPtr_alignPtrStore (m : Nat → Nat) (p al k : Nat)
    (hal : al = 2 ^ k) (h256 : al ≤ 256) (hp : p + al < WSIZE) :
    Align.UnalignPtr (Align.AlignPtrStore m p al).2 (Align.AlignPtrStore m p al).1 = p := by
  have hk : k ≤ 64 := by
    have : (2 : Nat) ^ k ≤ 2 ^ 8 := by rw [← hal]; exact h256.trans (by norm_num)
    have := (Nat.pow_le_pow_iff_right (by norm_num : 1 < 2)).mp this
    omega
  have hpos : 0 < al := by rw [hal]; positivity
  have hp' : p + (al - 1) < WSIZE := by omega
  obtain ⟨hge, hle⟩ := alignPtr_bounds p al k hal hk hp'
  unfold Align.AlignPtrStore
  simp only
  by_cases h0 : Align.AlignPtr p al = p
  · rw [if_pos h0, h0]
    have hlt : p + al < WSIZE := hp
    rw [Nat.mod_eq_of_lt hlt]
    unfold Align.UnalignPtr
    rw [readByte_writeByte_same]
    have hshift : p + al - p = al := by omega
    rw [hshift]
    by_cases h256' : al = 256
    · rw [h256']
      norm_num
    · have hlt256 : al < 256 := lt_of_le_of_ne h256 h256'
      rw [Nat.mod_eq_of_lt hlt256]
      have : ¬(al = 0) := by omega
      rw [if_neg this]
      omega
  · rw [if_neg h0]
    unfold Align.UnalignPtr
    rw [readByte_writeByte_same]
    have h1 : 1 ≤ Align.AlignPtr p al - p := by omega
    have h2 : Align.AlignPtr p al - p < 256 := by omega
    rw [Nat.mod_eq_of_lt h2]
    have : ¬(Align.AlignPtr p al - p = 0) := by omega
    rw [if_neg this]
    omega

/-- The inductive invariant of the `DoubleStackAllocator`: the cursors never
cross and the right cursor never exceeds the capacity. -/
def DsaInv (a : DoubleStackAllocator) : Prop :=
  a.left ≤ a.right ∧ a.right ≤ a.totalMemSize

/-- Every public operation preserves the invariant and the capacity, provided
any `FreeToMarker` marker value is one `GetMarker` could have produced
(`idx ≤ capacity`). -/
theorem dsaStep_preserves (a : DoubleStackAllocator) (op : DoubleStackAllocator.Op)
    (hinv : DsaInv a) (hop : DoubleStackAllocator.opWellFormed a.totalMemSize op = true) :
    DsaInv (DoubleStackAllocator.step a op)
    ∧ (DoubleStackAllocator.step a op).totalMemSize = a.totalMemSize := by
  obtain ⟨h1, h2⟩ := hinv
  cases op with
  | alloc side n =>
    cases side
    · simp only [DoubleStackAllocator.step, DoubleStackAllocator.Alloc]
      split
      · exact ⟨⟨h1, h2⟩, rfl⟩
      · next h =>
        refine ⟨⟨?_, ?_⟩, rfl⟩
        · show (a.left + n) % WSIZE ≤ a.right
          omega
        · show a.right ≤ a.totalMemSize
          exact h2
    · simp only [DoubleStackAllocator.step, DoubleStackAllocator.Alloc]
      split
      · exact ⟨⟨h1, h2⟩, rfl⟩
      · next h =>
        refine ⟨⟨?_, ?_⟩, rfl⟩
        · show a.left ≤ a.right - n
          omega
        · show a.right - n ≤ a.totalMemSize
          omega
  | freeTo mrk =>
    obtain ⟨side, idx⟩ := mrk
    have hidx : idx ≤ a.totalMemSize := by
      simpa [DoubleStackAllocator.opWellFormed] using hop
    cases side
    · simp only [DoubleStackAllocator.step, DoubleStackAllocator.FreeToMarker]
      split
      · exact ⟨⟨h1, h2⟩, rfl⟩
      · next h =>
        have h' : ¬(idx > a.left) := h
        refine ⟨⟨?_, ?_⟩, rfl⟩
        · show idx ≤ a.right
          omega
        · show a.right ≤ a.totalMemSize
          exact h2
    · simp only [DoubleStackAllocator.step, DoubleStackAllocator.FreeToMarker]
      split
      · exact ⟨⟨h1, h2⟩, rfl⟩
      · next h =>
        have h' : ¬(idx < a.right) := h
        refine ⟨⟨?_, ?_⟩, rfl⟩
        · show a.left ≤ idx
          omega
        · show idx ≤ a.totalMemSize
          exact hidx
  | clear side =>
    cases side
    · exact ⟨⟨Nat.zero_le _, h2⟩, rfl⟩
    · exact ⟨⟨h1.trans h2, le_refl _⟩, rfl⟩
  | clearAll =>
    exact ⟨⟨Nat.zero_le _, le_refl _⟩, rfl⟩

/-- Running any well-formed operation list from an invariant state keeps the
invariant. -/
theorem dsaRun_preserves (ops : List DoubleStackAllocator.Op) :
    ∀ (a : DoubleStackAllocator), DsaInv a →
      (∀ op ∈ ops, DoubleStackAllocator.opWellFormed a.totalMemSize op = true) →
      DsaInv (DoubleStackAllocator.run a ops)
      ∧ (DoubleStackAllocator.run a ops).totalMemSize = a.totalMemSize := by
  induction ops with
  | nil => exact fun a h _ => ⟨h, rfl⟩
  | cons op rest ih =>
    intro a hinv hops
    have hstep := dsaStep_preserves a op hinv (hops op (by simp))
    have hrest := ih (DoubleStackAllocator.step a op) hstep.1
      (by
        intro o ho
        rw [hstep.2]
        exact hops o (by simp [ho]))
    simp only [DoubleStackAllocator.run, List.foldl_cons] at *
    exact ⟨hrest.1, hrest.2.trans hstep.2⟩

/-- `DoubleStackAllocator::Alloc` failure characterization, valid in every
state: LEFT fails iff `left + n > right` (machine sum in range), RIGHT fails
iff `n > right` or `right - n < left`, and failures leave the state
unchanged. -/
theorem dsaAlloc_fail_iff (s : DoubleStackAllocator) :
    (∀ n, s.left + n < WSIZE → (((s.Alloc .LEFT n).1 = none) ↔ s.left + n > s.right))
    ∧ (∀ n, ((s.Alloc .RIGHT n).1 = none) ↔ (n > s.right ∨ s.right - n < s.left))
    ∧ (∀ side n, (s.Alloc side n).1 = none → (s.Alloc side n).2 = s) := by
  refine ⟨?_, ?_, ?_⟩
  · intro n hn
    have hmod : (s.left + n) % WSIZE = s.left + n := Nat.mod_eq_of_lt hn
    simp only [DoubleStackAllocator.Alloc]
    split
    · next h' =>
      rw [hmod] at h'
      exact ⟨fun _ => h', fun _ => rfl⟩
    · next h' =>
      rw [hmod] at h'
      exact ⟨fun hc => absurd hc (by simp), fun hgt => absurd hgt h'⟩
  · intro n
    simp only [DoubleStackAllocator.Alloc]
    split
    · next h' => exact ⟨fun _ => h', fun _ => rfl⟩
    · next h' => exact ⟨fun hc => absurd hc (by simp), fun hgt => absurd hgt h'⟩
  · intro side n
    cases side <;> simp only [DoubleStackAllocator.Alloc] <;> split
    · exact fun _ => rfl
    · exact fun hc => absurd hc (by simp)
    · exact fun _ => rfl
    · exact fun hc => absurd hc (by simp)

/-- A prefix sums to at most the whole list. -/
theorem sum_take_le (l : List Nat) (i : Nat) : (l.take i).sum ≤ l.sum := by
  conv_rhs => rw [← List.take_append_drop i l]
  rw [List.sum_append]
  exact Nat.le_add_right _ _

/-- Prefix sums are monotone in the prefix length. -/
theorem sum_take_mono (l : List Nat) {i j : Nat} (h : i ≤ j) :
    (l.take i).sum ≤ (l.take j).sum := by
  have ht : (l.take j).take i = l.take i := by
    rw [List.take_take, Nat.min_eq_left h]
  rw [← ht]
  exact sum_take_le _ _

/-- Extending a prefix by one element adds that element to its sum. -/
theorem sum_take_succ_get (l : List Nat) (i : Nat) (hi : i < l.length) :
    (l.take (i + 1)).sum = (l.take i).sum + l.get ⟨i, hi⟩ := by
  rw [List.take_succ, List.sum_append, List.getElem?_eq_getElem hi]
  simp [List.get_eq_getElem]

/-- When the requests fit (`pTop + Σ ns ≤ capacity < 2^64`), `Alloc` over the
whole list succeeds at the consecutive bump addresses and the cursor ends at
`pTop + Σ ns`. -/
theorem stackAllocList_spec (ns : List Nat) :
    ∀ (a : StackAllocator),
      a.totalStackSize < WSIZE → a.pTop + ns.sum ≤ a.totalStackSize →
      (a.AllocList ns).1
          = (List.range ns.length).map
              (fun i => some ((a.base + a.pTop + (ns.take i).sum) % WSIZE))
      ∧ (a.AllocList ns).2 = { a with pTop := a.pTop + ns.sum } := by
  induction ns with
  | nil =>
    intro a hW h
    exact ⟨by simp [StackAllocator.AllocList], by simp [StackAllocator.AllocList]⟩
  | cons n rest ih =>
    intro a hW h
    rw [List.sum_cons] at h
    have hmod : (a.pTop + n) % WSIZE = a.pTop + n := Nat.mod_eq_of_lt (by omega)
    have halloc : a.Alloc n
        = (some ((a.base + a.pTop) % WSIZE), { a with pTop := (a.pTop + n) % WSIZE }) := by
      unfold StackAllocator.Alloc
      rw [if_neg (by rw [hmod]; omega)]
    have ih1 := ih { a with pTop := a.pTop + n } (by exact hW) (by simp only; omega)
    dsimp only at ih1
    simp only [StackAllocator.AllocList, halloc]
    rw [hmod]
    constructor
    · rw [ih1.1]
      simp only [List.length_cons, List.range_succ_eq_map, List.map_cons, List.map_map]
      have hhead : (a.base + a.pTop + (List.take 0 (n :: rest)).sum) % WSIZE
          = (a.base + a.pTop) % WSIZE := by simp
      have htail :
          List.map
            ((fun i => some ((a.base + a.pTop + (List.take i (n :: rest)).sum) % WSIZE))
              ∘ Nat.succ) (List.range rest.length)
          = List.map (fun i => some ((a.base + (a.pTop + n) + (List.take i rest).sum) % WSIZE))
              (List.range rest.length) := by
        apply List.map_congr_left
        intro i _
        simp only [Function.comp_apply, List.take_succ_cons, List.sum_cons]
        have harith : a.base + a.pTop + (n + (List.take i rest).sum)
            = a.base + (a.pTop + n) + (List.take i rest).sum := by omega
        rw [harith]
      rw [hhead, htail]
    · rw [ih1.2]
      simp only [List.sum_cons]
      congr 1
      omega

/-- `StackAllocator::Alloc` single-step characterization: with an in-range
machine sum, it fails iff `cursor + n > capacity`, failure leaves the state
unchanged, and success returns the old-cursor address advancing by `n`. -/
theorem stackAlloc_step_spec (a : StackAllocator) (n : Nat) (hn : a.pTop + n < WSIZE) :
    (((a.Alloc n).1 = none) ↔ a.pTop + n > a.totalStackSize)
    ∧ ((a.Alloc n).1 = none → (a.Alloc n).2 = a)
    ∧ (a.pTop + n ≤ a.totalStackSize →
        a.Alloc n = (some ((a.base + a.pTop) % WSIZE), { a with pTop := a.pTop + n })) := by
  have hmod : (a.pTop + n) % WSIZE = a.pTop + n := Nat.mod_eq_of_lt hn
  unfold StackAllocator.Alloc
  rw [hmod]
  refine ⟨?_, ?_, ?_⟩
  · split
    · next h' => exact ⟨fun _ => h', fun _ => rfl⟩
    · next h' => exact ⟨fun hc => absurd hc (by simp), fun hgt => absurd hgt h'⟩
  · split
    · exact fun _ => rfl
    · exact fun hc => absurd hc (by simp)
  · intro hle
    rw [if_neg (by omega)]

/-- A power of two that is at most 256 has exponent at most 8 (hence 64). -/
theorem exponent_bounds (al k : Nat) (hal : al = 2 ^ k) (h256 : al ≤ 256) :
    k ≤ 8 ∧ k ≤ 64 ∧ 0 < al := by
  have h2 : (2 : Nat) ^ k ≤ 2 ^ 8 := by
    rw [← hal]
    exact h256.trans (by norm_num)
  have hk8 : k ≤ 8 := (Nat.pow_le_pow_iff_right (by norm_num : 1 < 2)).mp h2
  exact ⟨hk8, by omega, by rw [hal]; positivity⟩

/-- The pointer produced by `Align::AlignPtrStore` lies in `(p, p + al]`. -/
theorem alignPtrStore_fst_bounds (m : Nat → Nat) (p al k : Nat)
    (hal : al = 2 ^ k) (h256 : al ≤ 256) (hp : p + al < WSIZE) :
    p < (Align.AlignPtrStore m p al).1 ∧ (Align.AlignPtrStore m p al).1 ≤ p + al := by
  obtain ⟨hk8, hk, hpos⟩ := exponent_bounds al k hal h256
  have hp' : p + (al - 1) < WSIZE := by omega
  obtain ⟨hge, hle⟩ := alignPtr_bounds p al k hal hk hp'
  unfold Align.AlignPtrStore
  simp only
  by_cases h0 : Align.AlignPtr p al = p
  · rw [if_pos h0, h0, Nat.mod_eq_of_lt hp]
    omega
  · rw [if_neg h0]
    omega

/-- `StackAllocator::Alloc` never touches the buffer contents. -/
theorem stackAlloc_mem (a : StackAllocator) (n : Nat) : (a.Alloc n).2.mem = a.mem := by
  unfold StackAllocator.Alloc
  split <;> rfl

/-- The pointer produced by `Align::AlignPtrStore` is a multiple of the
(power-of-two) alignment, with no range condition. -/
theorem alignPtrStore_fst_mod (m : Nat → Nat) (p al k : Nat)
    (hal : al = 2 ^ k) (hk : k ≤ 64) :
    (Align.AlignPtrStore m p al).1 % al = 0 := by
  have hpos : 0 < al := by rw [hal]; positivity
  have hmod := alignPtr_mod_eq_zero p al k hal hk
  unfold Align.AlignPtrStore
  simp only
  by_cases h0 : Align.AlignPtr p al = p
  · rw [if_pos h0]
    have hdvd : al ∣ Align.AlignPtr p al + al :=
      Nat.dvd_add (Nat.dvd_of_mod_eq_zero hmod) dvd_rfl
    have hw : al ∣ WSIZE := dvd_WSIZE al k hal hk
    have hdvd2 : al ∣ (Align.AlignPtr p al + al) % WSIZE := by
      rw [Nat.mod_def]
      exact Nat.dvd_sub' hdvd (hw.mul_right _)
    exact Nat.dvd_iff_mod_eq_zero.mp hdvd2
  · rw [if_neg h0]
    exact hmod

/-!  Claim theorems. -/

/-- C3: round-trip law of the recoverable alignment shift.  For every
power-of-two alignment `al ≤ 256`: (i) `UnalignPtr` recovers the original
pointer from `AlignPtrStore`'s output, with the shift byte in `1..256`
(stored 0 decoding as 256) subtracted; (ii) at the allocator level, when
`AllocAligned(n, al)` succeeds, `GetAlignedBase` on its result returns
exactly the pointer that the inner `Alloc(n + al)` returned. -/
theorem C3_aligned_roundtrip :
    (∀ (m : Nat → Nat) (p al k : Nat), al = 2 ^ k → al ≤ 256 → p + al < WSIZE →
        Align.UnalignPtr (Align.AlignPtrStore m p al).2 (Align.AlignPtrStore m p al).1 = p)
    ∧ (∀ (a : StackAllocator) (n al k : Nat), al = 2 ^ k → al ≤ 256 →
        a.base + a.pTop + al < WSIZE →
        ∀ (pin : Nat) (a1 : StackAllocator) (q : Nat) (a2 : StackAllocator),
          a.Alloc ((n + al) % WSIZE) = (some pin, a1) →
          a.AllocAligned n al = (some q, a2) →
          a2.GetAlignedBase q = pin) := by
  constructor
  · exact fun m p al k hal h256 hp => unalignPtr_alignPtrStore m p al k hal h256 hp
  · intro a n al k hal h256 hb pin a1 q a2 h1 h2
    have hbp : a.base + a.pTop < WSIZE := by omega
    have hmem : a1.mem = a.mem := by
      have := stackAlloc_mem a ((n + al) % WSIZE)
      rw [h1] at this
      exact this
    have hpin : pin = a.base + a.pTop := by
      unfold StackAllocator.Alloc at h1
      by_cases hc : (a.pTop + (n + al) % WSIZE) % WSIZE > a.totalStackSize
      · rw [if_pos hc] at h1
        exact absurd (congrArg Prod.fst h1) (by simp)
      · rw [if_neg hc] at h1
        have := congrArg Prod.fst h1
        simp only [Option.some.injEq] at this
        rw [← this, Nat.mod_eq_of_lt hbp]
    simp only [StackAllocator.AllocAligned] at h2
    rw [h1] at h2
    simp only at h2
    have hq : (Align.AlignPtrStore a1.mem pin al).1 = q := by
      have := congrArg Prod.fst h2
      simpa using this
    have ha2 : a2 = { a1 with mem := (Align.AlignPtrStore a1.mem pin al).2 } := by
      have := congrArg Prod.snd h2
      simp only at this
      exact this.symm
    have hpal : pin + al < WSIZE := by omega
    obtain ⟨hlo, hhi⟩ := alignPtrStore_fst_bounds a1.mem pin al k hal h256 hpal
    have hq0 : q ≠ 0 := by omega
    unfold StackAllocator.GetAlignedBase
    rw [if_neg hq0, ha2]
    simp only
    rw [← hq, hmem]
    exact unalignPtr_alignPtrStore a.mem pin al k hal h256 hpal

/-- C3 witness: recovering base pointer 5 after aligning to 8, and the
allocator-level round trip on a capacity-20 stack with request 3, alignment 8
(the inner `Alloc(11)` returns the buffer base 0, and `GetAlignedBase` of the
aligned pointer 8 gives it back). -/
theorem C3_aligned_roundtrip_witness :
    (Align.UnalignPtr (Align.AlignPtrStore (fun _ => 0) 5 8).2
        (Align.AlignPtrStore (fun _ => 0) 5 8).1 = 5)
    ∧ (({ StackAllocator.init 20 0 (fun _ => 0) with
            pTop := 11, mem := writeByte (fun _ => 0) 7 8 } : StackAllocator).GetAlignedBase 8
        = 0) := by
  constructor
  · exact C3_aligned_roundtrip.1 (fun _ => 0) 5 8 3 (by decide) (by decide) (by decide)
  · exact C3_aligned_roundtrip.2 (StackAllocator.init 20 0 (fun _ => 0)) 3 8 3
      (by decide) (by decide) (by decide) 0
      { StackAllocator.init 20 0 (fun _ => 0) with pTop := 11 } 8
      { StackAllocator.init 20 0 (fun _ => 0) with
          pTop := 11, mem := writeByte (fun _ => 0) 7 8 }
      rfl rfl

/-- C2: for a `StackAllocator` of capacity `Cap > 0` and any request list of
cumulative size ≤ `Cap`, every `Alloc` succeeds, returning the address at the
old cursor (`base + Σ` of the previous requests); `GetCurrentSize` equals the
cumulative size after each prefix; the returned regions are pairwise disjoint
and lie within `[base, base + Cap)`; and the single-step contract holds:
`Alloc(n)` succeeds iff `cursor + n ≤ Cap`, advancing by exactly `n`, and
failure returns null with the state unchanged. -/
theorem C2_stack_alloc_spec (Cap b : Nat) (m : Nat → Nat) (ns : List Nat)
    (hW : Cap < WSIZE) (hb : b + Cap < WSIZE) (hsum : ns.sum ≤ Cap) :
    (∀ i, i < ns.length →
        ((StackAllocator.init Cap b m).AllocList ns).1[i]?
          = some (some (b + (ns.take i).sum)))
    ∧ (∀ i, ((StackAllocator.init Cap b m).AllocList (ns.take i)).2.GetCurrentSize
          = (ns.take i).sum)
    ∧ ((StackAllocator.init Cap b m).AllocList ns).2.GetCurrentSize = ns.sum
    ∧ (∀ i j (hi : i < ns.length), i < j →
        b + (ns.take i).sum + ns.get ⟨i, hi⟩ ≤ b + (ns.take j).sum)
    ∧ (∀ i (hi : i < ns.length),
        b + (ns.take i).sum + ns.get ⟨i, hi⟩ ≤ b + Cap)
    ∧ (∀ (a : StackAllocator) n, a.pTop + n < WSIZE →
        ((((a.Alloc n).1 = none) ↔ a.pTop + n > a.totalStackSize)
        ∧ ((a.Alloc n).1 = none → (a.Alloc n).2 = a)
        ∧ (a.pTop + n ≤ a.totalStackSize →
            a.Alloc n = (some ((a.base + a.pTop) % WSIZE), { a with pTop := a.pTop + n })))) := by
  have hspec := stackAllocList_spec ns (StackAllocator.init Cap b m) hW
    (by simpa [StackAllocator.init] using hsum)
  refine ⟨?_, ?_, ?_, ?_, ?_, fun a n hn => stackAlloc_step_spec a n hn⟩
  · intro i hi
    rw [hspec.1]
    rw [List.getElem?_map, List.getElem?_range hi]
    have hlt : b + (ns.take i).sum < WSIZE := by
      have := sum_take_le ns i
      omega
    simp only [Option.map_some', StackAllocator.init, Nat.add_zero]
    rw [Nat.mod_eq_of_lt hlt]
  · intro i
    have htk := stackAllocList_spec (ns.take i) (StackAllocator.init Cap b m) hW
      (by
        have := sum_take_le ns i
        simp only [StackAllocator.init]
        omega)
    rw [htk.2]
    simp [StackAllocator.GetCurrentSize, StackAllocator.init]
  · rw [hspec.2]
    simp [StackAllocator.GetCurrentSize, StackAllocator.init]
  · intro i j hi hij
    have h1 := sum_take_succ_get ns i hi
    have h2 := sum_take_mono ns (show i + 1 ≤ j from hij)
    omega
  · intro i hi
    have h1 := sum_take_succ_get ns i hi
    have h2 := sum_take_le ns (i + 1)
    omega

/-- C2 witness: capacity 10, buffer at 100, requests `[5, 4, 1]` — the second
allocation lands at `100 + 5`, and the final cursor is the cumulative 10. -/
theorem C2_stack_alloc_spec_witness :
    (((StackAllocator.init 10 100 (fun _ => 0)).AllocList [5, 4, 1]).1[1]?
        = some (some (100 + ([5, 4, 1].take 1).sum)))
    ∧ ((StackAllocator.init 10 100 (fun _ => 0)).AllocList [5, 4, 1]).2.GetCurrentSize
        = [5, 4, 1].sum := by
  have h := C2_stack_alloc_spec 10 100 (fun _ => 0) [5, 4, 1]
    (by decide) (by decide) (by decide)
  exact ⟨h.1 1 (by decide), h.2.2.1⟩

/-- C8: for every power-of-two alignment `al ≤ 256`, whenever an aligned
allocation succeeds — `StackAllocator::AllocAligned` or
`DoubleStackAllocator`'s aligned `Alloc` on either side — the returned
address is a multiple of `al`. -/
theorem C8_aligned_result_multiple (al k : Nat) (hal : al = 2 ^ k) (h256 : al ≤ 256) :
    (∀ (a : StackAllocator) (n q : Nat) (a' : StackAllocator),
        a.AllocAligned n al = (some q, a') → q % al = 0)
    ∧ (∀ (d : DoubleStackAllocator) (side : Side) (n q : Nat)
          (d' : DoubleStackAllocator),
        d.AllocAligned side n al = (some q, d') → q % al = 0) := by
  obtain ⟨hk8, hk, hpos⟩ := exponent_bounds al k hal h256
  constructor
  · intro a n q a' h
    simp only [StackAllocator.AllocAligned] at h
    rcases heq : a.Alloc ((n + al) % WSIZE) with ⟨r, a1⟩
    rw [heq] at h
    cases r with
    | none => exact absurd (congrArg Prod.fst h) (by simp)
    | some p =>
      simp only at h
      have hq : (Align.AlignPtrStore a1.mem p al).1 = q := by
        have := congrArg Prod.fst h
        simpa using this
      rw [← hq]
      exact alignPtrStore_fst_mod a1.mem p al k hal hk
  · intro d side n q d' h
    simp only [DoubleStackAllocator.AllocAligned] at h
    rcases heq : d.Alloc side ((n + al - 1) % WSIZE) with ⟨r, d1⟩
    rw [heq] at h
    cases r with
    | none => exact absurd (congrArg Prod.fst h) (by simp)
    | some p =>
      simp only at h
      have hq : Align.AlignPtr p al = q := by
        have := congrArg Prod.fst h
        simpa using this
      rw [← hq]
      exact alignPtr_mod_eq_zero p al k hal hk

/-- C8 witness: concrete aligned allocations — the capacity-20 stack returns
address 8 for `AllocAligned(3, 8)`, and the capacity-8 double stack returns
address 0 for a LEFT aligned allocation; both are multiples of 8. -/
theorem C8_aligned_result_multiple_witness :
    (((StackAllocator.init 20 0 (fun _ => 0)).AllocAligned 3 8).1.getD 1) % 8 = 0
    ∧ (((DoubleStackAllocator.init 8 0).AllocAligned .LEFT 1 8).1.getD 1) % 8 = 0 := by
  have h8 := C8_aligned_result_multiple 8 3 (by decide) (by decide)
  constructor
  · have h2 : (StackAllocator.init 20 0 (fun _ => 0)).AllocAligned 3 8
        = (some 8, { StackAllocator.init 20 0 (fun _ => 0) with
            pTop := 11, mem := writeByte (fun _ => 0) 7 8 }) := rfl
    have happ := h8.1 (StackAllocator.init 20 0 (fun _ => 0)) 3 8
      { StackAllocator.init 20 0 (fun _ => 0) with
          pTop := 11, mem := writeByte (fun _ => 0) 7 8 } h2
    rw [h2]
    exact happ
  · have h2 : (DoubleStackAllocator.init 8 0).AllocAligned .LEFT 1 8
        = (some 0, ⟨8, 8, 8, 0⟩) := rfl
    have happ := h8.2 (DoubleStackAllocator.init 8 0) .LEFT 1 0 ⟨8, 8, 8, 0⟩ h2
    rw [h2]
    exact happ

/-- C6 counterexample: the claim says the dual allocator's aligned allocation
calls the unaligned `Alloc` with `n + al`; but on a capacity-8 allocator the
aligned LEFT request `(n = 1, al = 8)` succeeds even though an unaligned
request of `1 + 8 = 9` bytes fails — the inner request is `n + al - 1`, not
`n + al`. -/
theorem C6_dsa_aligned_cx :
    (((DoubleStackAllocator.init 8 0).AllocAligned .LEFT 1 8).1.isSome = true)
    ∧ (((DoubleStackAllocator.init 8 0).Alloc .LEFT (1 + 8)).1 = none) := by
  constructor
  · decide
  · decide

/-- C6 as amended: `DoubleStackAllocator`'s aligned `Alloc` reserves
`al - 1` extra bytes (calling the unaligned `Alloc` with `n + al - 1`),
aligns the inner pointer with `Align::AlignPtr` storing no shift byte, and
propagates failure from the inner call; on the LEFT side it behaves exactly
as the historical `StackAllocator::Alloc(size, Align)` revision
(`src/unnamed/part_003`) with capacity `right` and cursor `left` — not as the
shift-storing `StackAllocator::AllocAligned`. -/
theorem C6_dsa_aligned_amended :
    ∀ (d : DoubleStackAllocator) (n al : Nat) (m0 : Nat → Nat),
      ((d.AllocAligned .LEFT n al).1
          = ((StackAllocator.mk d.right d.left d.base m0).AllocAlignedOld n al).1)
      ∧ ((d.AllocAligned .LEFT n al).2.left
          = ((StackAllocator.mk d.right d.left d.base m0).AllocAlignedOld n al).2.pTop)
      ∧ (∀ side : Side, (d.AllocAligned side n al).1
          = ((d.Alloc side ((n + al - 1) % WSIZE)).1).map (fun p => Align.AlignPtr p al))
      ∧ (∀ side : Side, (d.AllocAligned side n al).2
          = (d.Alloc side ((n + al - 1) % WSIZE)).2) := by
  intro d n al m0
  refine ⟨?_, ?_, ?_, ?_⟩
  · simp only [DoubleStackAllocator.AllocAligned, DoubleStackAllocator.Alloc,
      StackAllocator.AllocAlignedOld, StackAllocator.Alloc]
    by_cases hc : (d.left + (n + al - 1) % WSIZE) % WSIZE > d.right
    · simp only [if_pos hc]
    · simp only [if_neg hc]
  · simp only [DoubleStackAllocator.AllocAligned, DoubleStackAllocator.Alloc,
      StackAllocator.AllocAlignedOld, StackAllocator.Alloc]
    by_cases hc : (d.left + (n + al - 1) % WSIZE) % WSIZE > d.right
    · simp only [if_pos hc]
    · simp only [if_neg hc]
  · intro side
    cases side
    · simp only [DoubleStackAllocator.AllocAligned, DoubleStackAllocator.Alloc]
      by_cases hc : (d.left + (n + al - 1) % WSIZE) % WSIZE > d.right
      · rw [if_pos hc]
        rfl
      · rw [if_neg hc]
        rfl
    · simp only [DoubleStackAllocator.AllocAligned, DoubleStackAllocator.Alloc]
      by_cases hc : (n + al - 1) % WSIZE > d.right
          ∨ d.right - (n + al - 1) % WSIZE < d.left
      · rw [if_pos hc]
        rfl
      · rw [if_neg hc]
        rfl
  · intro side
    cases side
    · simp only [DoubleStackAllocator.AllocAligned, DoubleStackAllocator.Alloc]
      by_cases hc : (d.left + (n + al - 1) % WSIZE) % WSIZE > d.right
      · rw [if_pos hc]
      · rw [if_neg hc]
    · simp only [DoubleStackAllocator.AllocAligned, DoubleStackAllocator.Alloc]
      by_cases hc : (n + al - 1) % WSIZE > d.right
          ∨ d.right - (n + al - 1) % WSIZE < d.left
      · rw [if_pos hc]
      · rw [if_neg hc]

/-- C1: in every state reachable from construction by LEFT/RIGHT `Alloc`,
`FreeToMarker` (with markers `GetMarker` could have produced), `Clear` and
`ClearAll`, the invariant `left ≤ right` holds, and `Alloc` fails (returning
null with the state unchanged) exactly when granting the request would
violate it: LEFT iff `left + n > right`, RIGHT iff `n > right` or
`right - n < left`. -/
theorem C1_dsa_invariant_alloc_fail (total base : Nat)
    (ops : List DoubleStackAllocator.Op)
    (hops : ∀ op ∈ ops, DoubleStackAllocator.opWellFormed total op = true) :
    (DoubleStackAllocator.run (DoubleStackAllocator.init total base) ops).left
      ≤ (DoubleStackAllocator.run (DoubleStackAllocator.init total base) ops).right
    ∧ (∀ n,
        (DoubleStackAllocator.run (DoubleStackAllocator.init total base) ops).left + n < WSIZE →
        ((((DoubleStackAllocator.run (DoubleStackAllocator.init total base) ops).Alloc
            .LEFT n).1 = none)
          ↔ (DoubleStackAllocator.run (DoubleStackAllocator.init total base) ops).left + n
              > (DoubleStackAllocator.run (DoubleStackAllocator.init total base) ops).right))
    ∧ (∀ n,
        ((((DoubleStackAllocator.run (DoubleStackAllocator.init total base) ops).Alloc
            .RIGHT n).1 = none)
          ↔ (n > (DoubleStackAllocator.run (DoubleStackAllocator.init total base) ops).right
             ∨ (DoubleStackAllocator.run (DoubleStackAllocator.init total base) ops).right - n
                 < (DoubleStackAllocator.run (DoubleStackAllocator.init total base) ops).left)))
    ∧ (∀ side n,
        (((DoubleStackAllocator.run (DoubleStackAllocator.init total base) ops).Alloc
            side n).1 = none) →
        ((DoubleStackAllocator.run (DoubleStackAllocator.init total base) ops).Alloc
            side n).2
          = DoubleStackAllocator.run (DoubleStackAllocator.init total base) ops) := by
  have hrun := dsaRun_preserves ops (DoubleStackAllocator.init total base)
    ⟨Nat.zero_le _, le_refl _⟩ hops
  have hch := dsaAlloc_fail_iff
    (DoubleStackAllocator.run (DoubleStackAllocator.init total base) ops)
  exact ⟨hrun.1.1, hch.1, hch.2.1, hch.2.2⟩

/-- C1 witness: a concrete interleaving of all four operation kinds on a
capacity-10 allocator keeps `left ≤ right`, and an over-large LEFT request
on the resulting state fails. -/
theorem C1_dsa_invariant_alloc_fail_witness :
    ((DoubleStackAllocator.run (DoubleStackAllocator.init 10 0)
        [.alloc .LEFT 3, .alloc .RIGHT 4, .freeTo ⟨.LEFT, 1⟩, .clear .RIGHT,
          .clearAll, .alloc .LEFT 2]).left
      ≤ (DoubleStackAllocator.run (DoubleStackAllocator.init 10 0)
        [.alloc .LEFT 3, .alloc .RIGHT 4, .freeTo ⟨.LEFT, 1⟩, .clear .RIGHT,
          .clearAll, .alloc .LEFT 2]).right)
    ∧ (((DoubleStackAllocator.run (DoubleStackAllocator.init 10 0)
        [.alloc .LEFT 3, .alloc .RIGHT 4, .freeTo ⟨.LEFT, 1⟩, .clear .RIGHT,
          .clearAll, .alloc .LEFT 2]).Alloc .LEFT 9).1 = none) := by
  have h := C1_dsa_invariant_alloc_fail 10 0
    [.alloc .LEFT 3, .alloc .RIGHT 4, .freeTo ⟨.LEFT, 1⟩, .clear .RIGHT,
      .clearAll, .alloc .LEFT 2] (by decide)
  refine ⟨h.1, ?_⟩
  have h2 := h.2.1 9 (by decide)
  exact h2.mpr (by decide)

/-- C4: `FreeToMarker` raises the hard InvalidMarker error iff the marker would
move its cursor forward (for `StackAllocator`, `marker > cursor`; for
`DoubleStackAllocator`, a LEFT marker above `left` or a RIGHT marker below
`right`), otherwise it sets that cursor to the marker; in every failing case
the state is unchanged. -/
theorem C4_freeToMarker_invalid_iff :
    ∀ (a : StackAllocator) (marker : Nat) (d : DoubleStackAllocator) (mrk : DsaMarker),
      ((a.FreeToMarker marker).1 = true ↔ marker > a.pTop)
      ∧ ((a.FreeToMarker marker).1 = true → (a.FreeToMarker marker).2 = a)
      ∧ (marker ≤ a.pTop → (a.FreeToMarker marker).2 = { a with pTop := marker })
      ∧ ((d.FreeToMarker mrk).1 = true ↔
          ((mrk.side = .LEFT ∧ mrk.idx > d.left) ∨ (mrk.side = .RIGHT ∧ mrk.idx < d.right)))
      ∧ ((d.FreeToMarker mrk).1 = true → (d.FreeToMarker mrk).2 = d)
      ∧ (mrk.side = .LEFT → mrk.idx ≤ d.left →
          (d.FreeToMarker mrk).2 = { d with left := mrk.idx })
      ∧ (mrk.side = .RIGHT → mrk.idx ≥ d.right →
          (d.FreeToMarker mrk).2 = { d with right := mrk.idx }) := by
  intro a marker d mrk
  unfold StackAllocator.FreeToMarker DoubleStackAllocator.FreeToMarker
  obtain ⟨side, idx⟩ := mrk
  refine ⟨?_, ?_, ?_, ?_, ?_, ?_, ?_⟩
  · split <;> simp_all
  · split <;> simp_all
  · intro h
    split <;> first | omega | rfl
  · cases side <;> simp only <;> split <;> simp_all
  · cases side <;> simp only <;> split <;> simp_all
  · intro hside h
    cases side
    · have h' : idx ≤ d.left := h
      simp only
      split
      · omega
      · rfl
    · exact absurd hside (by simp)
  · intro hside h
    cases side
    · exact absurd hside (by simp)
    · have h' : idx ≥ d.right := h
      simp only
      split
      · omega
      · rfl

/-- C4 witness: concrete instances — a too-high marker throws and leaves the
`StackAllocator` unchanged; a valid LEFT marker rewinds the left cursor. -/
theorem C4_freeToMarker_invalid_iff_witness :
    ((StackAllocator.FreeToMarker ⟨10, 5, 0, fun _ => 0⟩ 7).1 = true)
    ∧ ((StackAllocator.FreeToMarker ⟨10, 5, 0, fun _ => 0⟩ 7).2 = ⟨10, 5, 0, fun _ => 0⟩)
    ∧ ((DoubleStackAllocator.FreeToMarker ⟨100, 10, 80, 0⟩ ⟨.LEFT, 3⟩).2 = ⟨100, 3, 80, 0⟩) := by
  have h := C4_freeToMarker_invalid_iff ⟨10, 5, 0, fun _ => 0⟩ 7 ⟨100, 10, 80, 0⟩ ⟨.LEFT, 3⟩
  have h1 : (StackAllocator.FreeToMarker ⟨10, 5, 0, fun _ => 0⟩ 7).1 = true :=
    h.1.mpr (by decide)
  exact ⟨h1, h.2.1 h1, h.2.2.2.2.2.1 rfl (by decide)⟩

/-- C7 as amended: `StackAllocator`'s constructor throws exactly on capacity 0
or the `InvalidMarker` sentinel, while `DoubleStackAllocator`'s constructor
asserts only `total_size != size_t(-1)` — it accepts capacity 0, producing the
state `left = 0 = right`. -/
theorem C7_ctor_checks :
    ∀ (sz b : Nat),
      (StackAllocator.ctorThrows sz = true ↔ (sz = 0 ∨ sz = StackAllocator.InvalidMarker))
      ∧ (DoubleStackAllocator.ctorAssertFails sz = true ↔ sz = WSIZE - 1)
      ∧ DoubleStackAllocator.ctorAssertFails 0 = false
      ∧ (DoubleStackAllocator.init 0 b).left = 0
      ∧ (DoubleStackAllocator.init 0 b).right = 0 := by
  intro sz b
  unfold StackAllocator.ctorThrows DoubleStackAllocator.ctorAssertFails
    StackAllocator.InvalidMarker DoubleStackAllocator.init
  refine ⟨?_, ?_, by decide, rfl, rfl⟩
  · simp [Bool.or_eq_true, beq_iff_eq]
  · simp [beq_iff_eq]

/-- C7 counterexample: the claim says `DoubleStackAllocator(0)` raises a hard
error, but the constructor's only check is the `size_t(-1)` assertion, which
passes for capacity 0: construction succeeds. -/
theorem C7_ctor_checks_cx :
    DoubleStackAllocator.ctorAssertFails 0 = false
    ∧ (DoubleStackAllocator.init 0 1).totalMemSize = 0
    ∧ (DoubleStackAllocator.init 0 1).left = 0
    ∧ (DoubleStackAllocator.init 0 1).right = 0 := by
  refine ⟨by decide, rfl, rfl, rfl⟩

/-- C10: `PoolAllocator::Free(nullptr)` and `PoolAllocator::Delete(nullptr)`
are no-ops: the whole state (free-list head, counters, memory) is returned
unchanged and no destructor is invoked. -/
theorem C10_pool_null_noop :
    ∀ (s : PoolAllocator),
      s.Free 0 = s
      ∧ s.Delete 0 = (s, false)
      ∧ (s.Free 0).GetFree = s.GetFree
      ∧ (s.Free 0).GetUsed = s.GetUsed
      ∧ (s.Free 0).GetTotal = s.GetTotal
      ∧ (s.Delete 0).1.first = s.first := by
  intro s
  exact ⟨rfl, rfl, rfl, rfl, rfl, rfl⟩

/-- C5: the `PoolAllocator` constructor mallocs `(num_items + align) * item_size`
bytes, but the free-list initialization strides by `item_size + align`; for
`item_size = 8` (any `T` with `sizeof(T) ≤ 8`), `count = 10`, `align = 1` the
buffer has 88 bytes while the last slot-pointer write covers offsets 81..88 —
one byte past the buffer.  Concretely, `fillFreeList` over a buffer at
address 0 modifies byte 88. -/
theorem C5_pool_ctor_out_of_bounds :
    PoolAllocator.allocBytes 10 1 8 = 88
    ∧ 9 * PoolAllocator.slotStep 8 1 + PTRSIZE = 89
    ∧ PoolAllocator.allocBytes 10 1 8 < 9 * PoolAllocator.slotStep 8 1 + PTRSIZE
    ∧ PoolAllocator.fillFreeList 0 (PoolAllocator.slotStep 8 1) 10 (fun _ => 77) 88 = 0
    ∧ (fun _ => (77 : Nat)) 88 = 77 := by
  refine ⟨by decide, by decide, by decide, by decide, rfl⟩

/-- The C9 scenario start state: `PoolAllocator<T>(num_items = 2, align = 1)`
for a `T` with `sizeof(T) ≤ 8` (slot payload 8 bytes), buffer at address
1024 over zeroed memory. -/
def c9s0 : PoolAllocator := PoolAllocator.init 2 1 8 1024 (fun _ => 0)

/-- First `Alloc()` of the scenario. -/
def c9r1 : Option Nat × PoolAllocator := c9s0.Alloc

/-- Second `Alloc()` of the scenario. -/
def c9r2 : Option Nat × PoolAllocator := c9r1.2.Alloc

/-- Third `Alloc()` of the scenario (the pool is full). -/
def c9r3 : Option Nat × PoolAllocator := c9r2.2.Alloc

/-- `Free(b)` where `b` is the second allocation's pointer. -/
def c9s4 : PoolAllocator := c9r3.2.Free (c9r2.1.getD 0)

/-- The `Alloc()` after the free. -/
def c9r5 : Option Nat × PoolAllocator := c9s4.Alloc

/-- C9: on a two-slot pool the first two `Alloc()` succeed (at the two
distinct slot addresses 1025 and 1034), the third fails returning null with
head and counters unchanged, and after `Free(b)` the next `Alloc()` succeeds
returning exactly `b`'s aligned slot address again — LIFO reuse through the
free-list head. -/
theorem C9_pool_lifo_reuse :
    c9r1.1 = some 1025
    ∧ c9r2.1 = some 1034
    ∧ c9r3.1 = none
    ∧ c9r3.2.GetUsed = c9r2.2.GetUsed
    ∧ c9r3.2.GetFree = c9r2.2.GetFree
    ∧ c9r3.2.GetTotal = c9r2.2.GetTotal
    ∧ c9r3.2.first = c9r2.2.first
    ∧ c9r5.1 = c9r2.1 := by
  refine ⟨?_, ?_, ?_, ?_, ?_, ?_, ?_, ?_⟩ <;> decide

end RenUtils
